import Mathlib

/-!
Verification development for the `proc` process-monitoring library.

The library has two backends:
* `StatSampler` (proc_linux.go): parses the per-process kernel stat
  pseudo-file and maintains a smoothed CPU estimate updated by a
  self-rescheduling periodic task;
* `CounterSession` (proc_windows.go): a PDH performance-counter query
  session with a 2-second cache throttle and PID-based demultiplexing
  of array-valued counter results.

Modelling conventions:
* Go `int64` values are modelled as `Int`, with wrap-around made explicit
  by `w64` at every operation where Go arithmetic can overflow.
* Go `float64` values are modelled as `Rat`; the only float operations the
  code performs on claim-relevant paths (division by `10.0`, conversion of
  whole-valued counter results) are exact at the values of interest.
* Byte strings are `List Nat`; file reads, the system-uptime call and the
  PDH FFI calls are modelled as explicit inputs (environments) to the
  functions that consume them.
* A Go runtime panic (index out of range) is modelled as an explicit
  `panic` outcome, distinct from returning normally or returning an error.
-/

namespace Proc

/-- Wrap an integer into the two's-complement `int64` range, modelling Go
`int64` overflow.  For `-2^63 ≤ z < 2^63` this is the identity. -/
def w64 (z : Int) : Int :=
  (z + 2 ^ 63) % 2 ^ 64 - 2 ^ 63

/-- Go `/` on `int64` truncates toward zero; `Int.tdiv` is the matching
Lean operation (Lean's own `/` on `Int` is Euclidean division). -/
def godiv (a b : Int) : Int := Int.tdiv a b

/-- Field positions in the stat record (proc_linux.go `const` block). -/
def utimePos : Nat := 13

/-- stime position. -/
def stimePos : Nat := 14

/-- Process start-time position. -/
def startPos : Nat := 21

/-- Virtual-size position. -/
def vssPos : Nat := 22

/-- Resident-page-count position. -/
def rssPos : Nat := 23

/-- `ticks` (clock ticks per second); proc_linux.go hard-codes 100 in
`init` instead of calling `sysconf(_SC_CLK_TCK)`. -/
def ticks : Int := 100

/-- Loop body of `parseInt64` (proc_linux.go): scan bytes left to right,
returning the sentinel `-1` at the first byte outside ASCII `0`-`9`,
otherwise accumulating `n = n*10 + (dec - 48)` with `int64` wrap-around. -/
def parseLoop : List Nat → Int → Int
  | [], n => n
  | d :: ds, n =>
      if d < 48 ∨ 57 < d then -1
      else parseLoop ds (w64 (n * 10 + ((d : Int) - 48)))

/-- `parseInt64` (proc_linux.go): empty input yields the sentinel `-1`;
otherwise run the scanning loop starting from `0`. -/
def parseInt64 (d : List Nat) : Int :=
  if d = [] then -1 else parseLoop d 0

/-- ASCII whitespace test, modelling `unicode.IsSpace` restricted to
single-byte (ASCII) runes, which is what `bytes.Fields` uses to split a
stat record.  Stat records are ASCII. -/
def isSpaceByte (b : Nat) : Bool :=
  b == 32 || b == 9 || b == 10 || b == 11 || b == 12 || b == 13

/-- Accumulator-style splitter behind `goFields`. -/
def goFieldsAux : List Nat → List Nat → List (List Nat)
  | [], acc => if acc = [] then [] else [acc.reverse]
  | b :: bs, acc =>
      if isSpaceByte b then
        if acc = [] then goFieldsAux bs []
        else acc.reverse :: goFieldsAux bs []
      else goFieldsAux bs (b :: acc)

/-- `bytes.Fields` on ASCII input: split around runs of whitespace,
producing the list of maximal non-whitespace substrings. -/
def goFields (bs : List Nat) : List (List Nat) :=
  goFieldsAux bs []

/-- The snapshot written through `Usage`'s three output pointers:
`*pcpu : float64` (modelled as `Rat`), `*rss`, `*vss : int64`. -/
structure Snapshot where
  pcpu : Rat
  rss : Int
  vss : Int
deriving DecidableEq, Repr

/-- Outcome of one `Usage` call.  `err e out` / `ok out` carry the final
contents of the three output locations (`err` leaves them as the caller
passed them in); `panic` models a Go runtime panic (index out of range),
which aborts rather than returns. -/
inductive GoRes (ε : Type) where
  | panic : GoRes ε
  | err : ε → Snapshot → GoRes ε
  | ok : Snapshot → GoRes ε
deriving DecidableEq, Repr

/-- StatSampler's process-wide mutable state (proc_linux.go globals
`lastTotal`, `lastSeconds`, `ipcpu`). -/
structure LinState where
  lastTotal : Int
  lastSeconds : Int
  ipcpu : Int
deriving DecidableEq, Repr

/-- Outcome of one run of the periodic task. -/
inductive PeriodicRes where
  | readFail : PeriodicRes
  | panicked : PeriodicRes
  | sysinfoFail : PeriodicRes
  | ticked : PeriodicRes
deriving DecidableEq, Repr

/-- Core computation of `periodic` (proc_linux.go) once the three tick
fields are parsed and the uptime is known: `total = utime + stime`,
`seconds = uptime - pstart/ticks`, save the previous `(total, seconds)`,
form the deltas, and update `ipcpu` to `(Δtotal*1000/ticks)/Δseconds`
only when `Δseconds > 0`.  All `int64` arithmetic wraps via `w64`. -/
def periodicCompute (pstart utime stime up : Int) (s : LinState) : LinState :=
  let total := w64 (utime + stime)
  let seconds := w64 (up - godiv pstart ticks)
  let dT := w64 (total - s.lastTotal)
  let dS := w64 (seconds - s.lastSeconds)
  { lastTotal := total
    lastSeconds := seconds
    ipcpu := if 0 < dS then godiv (godiv (w64 (dT * 1000)) ticks) dS else s.ipcpu }

/-- `periodic` (proc_linux.go).  `read` is the result of
`ioutil.ReadFile(procStatFile)` (`none` = error), `up` the result of
`syscall.Sysinfo` (`none` = error, `some u` = `sysinfo.Uptime`).
Returns the outcome, the new global state, and whether the task
rescheduled itself via `time.AfterFunc(1*time.Second, periodic)`.
The code indexes `fields[startPos]` (= 21) before anything else, so a
record with at most 21 fields panics; on a read or sysinfo error it
returns early without rescheduling. -/
def periodic (read : Option (List Nat)) (up : Option Int) (s : LinState) :
    PeriodicRes × LinState × Bool :=
  match read with
  | none => (.readFail, s, false)
  | some contents =>
    let fields := goFields contents
    match fields[startPos]?, fields[utimePos]?, fields[stimePos]? with
    | some fstart, some futime, some fstime =>
      match up with
      | none => (.sysinfoFail, s, false)
      | some u =>
        (.ticked,
         periodicCompute (parseInt64 fstart) (parseInt64 futime) (parseInt64 fstime) u s,
         true)
    | _, _, _ => (.panicked, s, false)

/-- `Usage` (proc_linux.go).  `read` is the `ReadFile` result (error
propagated to the caller untouched), `ipcpu` the current value of the
shared atomic estimate, `inp` the contents of the caller's three output
locations before the call.  On success: `*rss = parseInt64(fields[23]) << 12`
(an `int64` shift, hence `w64`), `*vss = parseInt64(fields[22])`,
`*pcpu = float64(ipcpu) / 10.0`.  A record with fewer than 24 fields
panics at `fields[rssPos]` before writing anything. -/
def usageLinux (ε : Type) (read : Except ε (List Nat)) (ipcpu : Int)
    (inp : Snapshot) : GoRes ε :=
  match read with
  | .error e => .err e inp
  | .ok contents =>
    let fields := goFields contents
    match fields[rssPos]?, fields[vssPos]? with
    | some frss, some fvss =>
        .ok { pcpu := (ipcpu : Rat) / 10
              rss := w64 (parseInt64 frss * 4096)
              vss := parseInt64 fvss }
    | _, _ => .panic

/-! ### CounterSession (proc_windows.go) -/

/-- Error surface of the CounterSession backend.  The Go code returns
`fmt.Errorf` values; we distinguish them by the site that produced them.
`pidNotFound` is the "could not find pid in performance counter results"
error. -/
inductive WinErr where
  | openFailed : WinErr
  | addPidFailed : WinErr
  | addCpuFailed : WinErr
  | addRssFailed : WinErr
  | addVssFailed : WinErr
  | initCollectFailed : WinErr
  | collectFailed : WinErr
  | pidArrayFailed : WinErr
  | cpuArrayFailed : WinErr
  | rssArrayFailed : WinErr
  | vssArrayFailed : WinErr
  | pidNotFound : WinErr
deriving DecidableEq, Repr

/-- Results of the PDH calls performed inside `initCounters`:
`PdhOpenQuery`, the four `PdhAddCounterW` calls, and the initial
`PdhCollectQueryData`. -/
structure InitEnv where
  openOk : Bool
  addPidOk : Bool
  addCpuOk : Bool
  addRssOk : Bool
  addVssOk : Bool
  collectOk : Bool
deriving DecidableEq, Repr

/-- `initCounters` (proc_windows.go): open the query, add the four
counters (pid, cpu, rss, vss — in that order), then perform one initial
collection; the first failing step aborts with its error. -/
def initCounters (e : InitEnv) : Except WinErr Unit :=
  if !e.openOk then .error .openFailed
  else if !e.addPidOk then .error .addPidFailed
  else if !e.addCpuOk then .error .addCpuFailed
  else if !e.addRssOk then .error .addRssFailed
  else if !e.addVssOk then .error .addVssFailed
  else if !e.collectOk then .error .initCollectFailed
  else .ok ()

/-- Go's `int(x)` conversion from `float64`, truncation toward zero,
on the `Rat` model of `float64`. -/
def ratTrunc (q : Rat) : Int :=
  Int.tdiv q.num (q.den : Int)

/-- The PID-demultiplexing loop of `Usage` (proc_windows.go): the first
index `i` of the PID counter array with `int(pidAry[i]) == processPid`,
or `none` (the loop leaves `idx = -1`). -/
def findPidIndex (pid : Int) : List Rat → Option Nat
  | [] => none
  | x :: xs =>
      if ratTrunc x = pid then some 0
      else (findPidIndex pid xs).map (· + 1)

/-- Nanoseconds in `2 * time.Second`, the cache-throttle window. -/
def twoSecondsNs : Int := 2000000000

/-- External inputs of one `Usage` call on the CounterSession backend:
the results of the PDH calls the body would make, the caller's PID and
the current wall-clock time in nanoseconds (used both by `time.Since`
and by the deferred `lastSampleTime = time.Now()`).  The four formatted
counter arrays are the results of `getCounterArrayData`, which wraps the
two-step PDH probe-then-fetch protocol (`.error` = a non-success,
non-`PDH_MORE_DATA` status; an empty list is a legal success). -/
structure WinEnv where
  init : InitEnv
  now : Int
  pid : Int
  collectOk : Bool
  pidAry : Except Unit (List Rat)
  cpuAry : Except Unit (List Rat)
  rssAry : Except Unit (List Rat)
  vssAry : Except Unit (List Rat)
deriving Repr

/-- CounterSession's process-wide mutable state (proc_windows.go globals
`initialSample`, `prevCPU`, `prevRss`, `prevVss`, `lastSampleTime`). -/
structure WinState where
  initialSample : Bool
  prevCPU : Rat
  prevRss : Int
  prevVss : Int
  lastSampleTime : Int
deriving DecidableEq, Repr

/-- Result of one `Usage` call on the CounterSession backend: the call
outcome, the final global state, whether the body's
`pdhCollectQueryData` (a fresh collection) ran, and whether
`initCounters` ran. -/
structure WinCall where
  res : GoRes WinErr
  st : WinState
  collected : Bool
  ranInit : Bool
deriving DecidableEq, Repr

/-- The part of `Usage` (proc_windows.go) after the initial-sample /
cache check: the deferred `lastSampleTime = time.Now()` applies to every
path from here on; collect, fetch the four arrays (pid, cpu, rss, vss —
in that order, each failure returning its error), locate the caller's
PID, and read the matching index of the other three arrays (an index
beyond an array's length is a Go slice-bounds panic). -/
def usageWinBody (env : WinEnv) (st : WinState) (inp : Snapshot)
    (ranInit : Bool) : WinCall :=
  let st1 := { st with lastSampleTime := env.now }
  if !env.collectOk then ⟨.err .collectFailed inp, st1, true, ranInit⟩
  else match env.pidAry with
  | .error _ => ⟨.err .pidArrayFailed inp, st1, true, ranInit⟩
  | .ok pidAry =>
    match env.cpuAry with
    | .error _ => ⟨.err .cpuArrayFailed inp, st1, true, ranInit⟩
    | .ok cpuAry =>
      match env.rssAry with
      | .error _ => ⟨.err .rssArrayFailed inp, st1, true, ranInit⟩
      | .ok rssAry =>
        match env.vssAry with
        | .error _ => ⟨.err .vssArrayFailed inp, st1, true, ranInit⟩
        | .ok vssAry =>
          match findPidIndex env.pid pidAry with
          | none => ⟨.err .pidNotFound inp, st1, true, ranInit⟩
          | some idx =>
            match cpuAry[idx]?, rssAry[idx]?, vssAry[idx]? with
            | some c, some r, some v =>
                let out : Snapshot := ⟨c, ratTrunc r, ratTrunc v⟩
                ⟨.ok out,
                 { st1 with prevCPU := out.pcpu, prevRss := out.rss,
                            prevVss := out.vss },
                 true, ranInit⟩
            | _, _, _ => ⟨.panic, st1, true, ranInit⟩

/-- `Usage` (proc_windows.go).  Under the query lock: if
`initialSample`, run `initCounters` (a failure is returned with the
session still marked uninitialized; on success `initialSample` is
cleared and the call falls through to a fresh collection, skipping the
cache check).  Otherwise, if less than 2 seconds have passed since
`lastSampleTime`, return the cached `prevCPU`/`prevRss`/`prevVss`
without collecting.  Otherwise perform a fresh collection via
`usageWinBody`. -/
def usageWin (env : WinEnv) (st : WinState) (inp : Snapshot) : WinCall :=
  if st.initialSample then
    match initCounters env.init with
    | .error e => ⟨.err e inp, st, false, true⟩
    | .ok _ => usageWinBody env { st with initialSample := false } inp true
  else if env.now - st.lastSampleTime < twoSecondsNs then
    ⟨.ok ⟨st.prevCPU, st.prevRss, st.prevVss⟩, st, false, false⟩
  else usageWinBody env st inp false

/-- `getProcessExeName`'s trimming step (proc_windows.go):
`strings.TrimRight(name, ".exe")` removes from the right end every
character belonging to the cut set, i.e. every trailing `'.'`, `'e'` or
`'x'`, not just a literal `".exe"` suffix. -/
def goTrimRight (s : List Char) (cutset : List Char) : List Char :=
  (s.reverse.dropWhile (fun c => c ∈ cutset)).reverse

/-- `getProcessExeName` (proc_windows.go), as a function of the base
name of `os.Args[0]` (`filepath.Base` is Go standard library, supplied
here as the input): trim every trailing character of `".exe"`'s
character set. -/
def getProcessExeName (argv0Base : List Char) : List Char :=
  goTrimRight argv0Base ['.', 'e', 'x']

/-! ### Concrete stat records used in the concrete parts of the claims -/

/-- A 24-field stat record (ASCII bytes): pid `1`, comm `(x)`, state `S`,
ten `0` fields, `utime = 100` (field 13), `stime = 0` (field 14), six `0`
fields, `starttime = 0` (field 21), `vss = 0` (field 22), `rss = 0`
(field 23). -/
def tick1bytes : List Nat :=
  [49, 32, 40, 120, 41, 32, 83] ++
  (List.replicate 10 [32, 48]).flatten ++
  [32, 49, 48, 48] ++ [32, 48] ++
  (List.replicate 6 [32, 48]).flatten ++
  [32, 48] ++ [32, 48] ++ [32, 48]

/-- Like `tick1bytes` but `utime = 250`, `stime = 50` (so the tick total
is 300), `vss = 7`, `rss = 5`. -/
def tick2bytes : List Nat :=
  [49, 32, 40, 120, 41, 32, 83] ++
  (List.replicate 10 [32, 48]).flatten ++
  [32, 50, 53, 48] ++ [32, 53, 48] ++
  (List.replicate 6 [32, 48]).flatten ++
  [32, 48] ++ [32, 55] ++ [32, 53]

/-- A 24-field stat record whose RSS field (position 23) is the single
non-numeric byte `'x'` (120); every other numeric field is `0`. -/
def badRssBytes : List Nat :=
  [49, 32, 40, 120, 41, 32, 83] ++
  (List.replicate 10 [32, 48]).flatten ++
  [32, 48] ++ [32, 48] ++
  (List.replicate 6 [32, 48]).flatten ++
  [32, 48] ++ [32, 48] ++ [32, 120]

/-! ### Helper lemmas -/

/-- `w64` is the identity on the `int64` range. -/
theorem w64_eq_self (z : Int) (h1 : -(2 ^ 63) ≤ z) (h2 : z < 2 ^ 63) :
    w64 z = z := by
  unfold w64
  rw [Int.emod_eq_of_lt (by omega) (by omega)]
  omega

/-- The scanning loop of `parseInt64` yields `-1` whenever some byte of
its input is outside ASCII `0`-`9`, whatever the accumulator. -/
theorem parseLoop_bad (d : List Nat) (n : Int)
    (h : ∃ b ∈ d, b < 48 ∨ 57 < b) : parseLoop d n = -1 := by
  induction d generalizing n with
  | nil => simp at h
  | cons a ds ih =>
    unfold parseLoop
    by_cases ha : a < 48 ∨ 57 < a
    · rw [if_pos ha]
    · rw [if_neg ha]
      apply ih
      obtain ⟨b, hb, hbad⟩ := h
      rcases List.mem_cons.mp hb with hba | hbds
      · exact absurd (hba ▸ hbad) ha
      · exact ⟨b, hbds, hbad⟩

/-! ### Claims about the StatSampler backend -/

set_option maxRecDepth 100000 in
/-- C1: On each periodic tick, if the elapsed-seconds delta since the
previous tick is strictly positive, the shared atomic CPU estimate
becomes `(Δtotal * 1000 / ticks) / Δseconds` (a per-mille-of-percent
integer, with `ticks = 100`); if the delta is zero or negative the
previous estimate is kept.  `Usage` reports `pcpu` equal to the stored
integer divided by 10.  In particular, two concrete ticks with
`Δtotal = 200` and `Δseconds = 2` store `1000`, and `Usage` then
reports `100`. -/
theorem c1_cpu_estimate :
    ticks = 100 ∧
    (∀ (pstart utime stime up : Int) (s : LinState) (dT dS : Int),
      dT = w64 (w64 (utime + stime) - s.lastTotal) →
      dS = w64 (w64 (up - godiv pstart ticks) - s.lastSeconds) →
      (0 < dS → -(2 ^ 63) ≤ dT * 1000 → dT * 1000 < 2 ^ 63 →
        (periodicCompute pstart utime stime up s).ipcpu =
          godiv (godiv (dT * 1000) ticks) dS) ∧
      (dS ≤ 0 → (periodicCompute pstart utime stime up s).ipcpu = s.ipcpu)) ∧
    (∀ (c : List Nat) (ip : Int) (inp out : Snapshot),
      usageLinux Unit (.ok c) ip inp = .ok out → out.pcpu = (ip : Rat) / 10) ∧
    ((periodic (some tick1bytes) (some 50) ⟨0, 0, 0⟩).2.1 = ⟨100, 50, 20⟩ ∧
     periodic (some tick2bytes) (some 52) ⟨100, 50, 20⟩ =
       (.ticked, ⟨300, 52, 1000⟩, true) ∧
     (300 : Int) - 100 = 200 ∧ (52 : Int) - 50 = 2 ∧
     (∀ inp : Snapshot,
       usageLinux Unit (.ok tick2bytes) 1000 inp =
         .ok ⟨((1000 : Int) : Rat) / 10, 20480, 7⟩) ∧
     ((1000 : Int) : Rat) / 10 = 100) := by
  refine ⟨rfl, ?_, ?_, ?_⟩
  · intro pstart utime stime up s dT dS hdT hdS
    subst hdT
    subst hdS
    constructor
    · intro hpos hlo hhi
      simp only [periodicCompute]
      rw [if_pos hpos, w64_eq_self _ hlo hhi]
    · intro hneg
      simp only [periodicCompute]
      rw [if_neg (not_lt.mpr hneg)]
  · intro c ip inp out h
    simp only [usageLinux] at h
    rcases h23 : (goFields c)[rssPos]? with _ | frss <;>
      rcases h22 : (goFields c)[vssPos]? with _ | fvss <;>
      rw [h23, h22] at h <;> simp at h
    rw [← h]
  · exact ⟨by rfl, by rfl, by decide, by decide, fun _ => rfl, by norm_num⟩

/-- Closed instance of `c1_cpu_estimate`: the tick-update law at
`Δtotal = 200`, `Δseconds = 2`. -/
theorem c1_cpu_estimate_witness :
    (periodicCompute 0 250 50 52 ⟨100, 50, 20⟩).ipcpu =
      godiv (godiv (200 * 1000) ticks) 2 :=
  (c1_cpu_estimate.2.1 0 250 50 52 ⟨100, 50, 20⟩ 200 2 (by decide)
    (by decide)).1 (by decide) (by decide) (by decide)

/-- C2 counterexample: a periodic run whose stat-file read fails returns
early without rescheduling, so the claim that the task reschedules
itself after every run (including read failures) is false. -/
theorem c2_counterexample :
    (periodic none (some 0) ⟨0, 0, 0⟩).1 = .readFail ∧
    (periodic none (some 0) ⟨0, 0, 0⟩).2.2 = false :=
  ⟨rfl, rfl⟩

/-- C2 (amended): the periodic task reschedules itself exactly when the
stat read succeeds, the record has at least 22 fields, and the uptime
call succeeds; on a read or sysinfo failure (or a short record) it does
not reschedule, so sampling stops. -/
theorem c2_reschedule_iff :
    ∀ (read : Option (List Nat)) (up : Option Int) (s : LinState),
      (periodic read up s).2.2 = true ↔
        ((∃ c, read = some c ∧ 22 ≤ (goFields c).length) ∧ up.isSome = true) := by
  intro read up s
  cases read with
  | none => simp [periodic]
  | some c =>
    have hlt : ∀ {i : Nat} {f : List Nat},
        (goFields c)[i]? = some f → i < (goFields c).length := by
      intro i f hf
      by_contra hh
      rw [List.getElem?_eq_none (by omega)] at hf
      cases hf
    simp only [periodic, startPos, utimePos, stimePos]
    rcases h21 : (goFields c)[21]? with _ | f21 <;>
      rcases h13 : (goFields c)[13]? with _ | f13 <;>
      rcases h14 : (goFields c)[14]? with _ | f14 <;>
      cases up <;>
      (try have h21l := hlt h21) <;>
      (try have h13l := hlt h13) <;>
      (try have h14l := hlt h14) <;>
      simp_all <;> omega

/-- C3 counterexample: on the 3-field record `"1 2 3"` both `Usage` and
the periodic task hit an out-of-range index, i.e. a Go panic that aborts
the host process, so the claim that no input can abort is false. -/
theorem c3_counterexample :
    usageLinux Unit (.ok [49, 32, 50, 32, 51]) 0 ⟨0, 0, 0⟩ = .panic ∧
    (periodic (some [49, 32, 50, 32, 51]) (some 0) ⟨0, 0, 0⟩).1 = .panicked :=
  ⟨rfl, rfl⟩

/-- C3 (amended): provided every successfully read stat record has at
least 24 whitespace-separated fields (for `Usage`; 22 suffice for the
periodic task), every call returns normally or with an error value and
never panics; a shorter record makes the corresponding call abort with
an index-out-of-range panic. -/
theorem c3_no_abort_on_wellformed_records :
    (∀ (E : Type) (read : Except E (List Nat)) (ip : Int) (inp : Snapshot),
      (∀ c, read = .ok c → 24 ≤ (goFields c).length) →
      usageLinux E read ip inp ≠ .panic) ∧
    (∀ (read : Option (List Nat)) (up : Option Int) (s : LinState),
      (∀ c, read = some c → 22 ≤ (goFields c).length) →
      (periodic read up s).1 ≠ .panicked) := by
  constructor
  · intro E read ip inp h
    cases read with
    | error e => simp [usageLinux]
    | ok c =>
      have hl := h c rfl
      obtain ⟨f23, h23⟩ : ∃ f, (goFields c)[rssPos]? = some f :=
        ⟨(goFields c).get ⟨23, by omega⟩,
          by simpa [rssPos] using List.getElem?_eq_getElem (show 23 < (goFields c).length by omega)⟩
      obtain ⟨f22, h22⟩ : ∃ f, (goFields c)[vssPos]? = some f :=
        ⟨(goFields c).get ⟨22, by omega⟩,
          by simpa [vssPos] using List.getElem?_eq_getElem (show 22 < (goFields c).length by omega)⟩
      simp [usageLinux, h23, h22]
  · intro read up s h
    cases read with
    | none => simp [periodic]
    | some c =>
      have hl := h c rfl
      obtain ⟨f21, h21⟩ : ∃ f, (goFields c)[startPos]? = some f :=
        ⟨(goFields c).get ⟨21, by omega⟩,
          by simpa [startPos] using List.getElem?_eq_getElem (show 21 < (goFields c).length by omega)⟩
      obtain ⟨f13, h13⟩ : ∃ f, (goFields c)[utimePos]? = some f :=
        ⟨(goFields c).get ⟨13, by omega⟩,
          by simpa [utimePos] using List.getElem?_eq_getElem (show 13 < (goFields c).length by omega)⟩
      obtain ⟨f14, h14⟩ : ∃ f, (goFields c)[stimePos]? = some f :=
        ⟨(goFields c).get ⟨14, by omega⟩,
          by simpa [stimePos] using List.getElem?_eq_getElem (show 14 < (goFields c).length by omega)⟩
      cases up with
      | none => simp [periodic, h21, h13, h14]
      | some u => simp [periodic, h21, h13, h14]

/-- Closed instance of `c3_no_abort_on_wellformed_records` at a concrete
24-field record. -/
theorem c3_no_abort_witness :
    usageLinux Unit (.ok tick1bytes) 0 ⟨0, 0, 0⟩ ≠ .panic ∧
    (periodic (some tick1bytes) (some 50) ⟨0, 0, 0⟩).1 ≠ .panicked :=
  ⟨c3_no_abort_on_wellformed_records.1 Unit (.ok tick1bytes) 0 ⟨0, 0, 0⟩
      (fun c hc => by injection hc with h; rw [← h]; decide),
   c3_no_abort_on_wellformed_records.2 (some tick1bytes) (some 50) ⟨0, 0, 0⟩
      (fun c hc => by injection hc with h; rw [← h]; decide)⟩

/-- C5: on every successful `Usage` call of the StatSampler backend,
`rss` is the parsed field 23 (resident page count) shifted left by 12
bits (as an `int64` shift), and `vss` is the parsed field 22 unchanged. -/
theorem c5_memory_fields :
    ∀ (c : List Nat) (ip : Int) (inp out : Snapshot) (frss fvss : List Nat),
      usageLinux Unit (.ok c) ip inp = .ok out →
      (goFields c)[rssPos]? = some frss →
      (goFields c)[vssPos]? = some fvss →
      out.rss = w64 (parseInt64 frss * 2 ^ 12) ∧ out.vss = parseInt64 fvss := by
  intro c ip inp out frss fvss h h23 h22
  simp only [usageLinux] at h
  rw [h23, h22] at h
  simp only [GoRes.ok.injEq] at h
  rw [← h]
  exact ⟨by norm_num, rfl⟩

/-- Closed instance of `c5_memory_fields` on a concrete record:
`rss = 5`, page shift gives `20480`; `vss = 7` unchanged. -/
theorem c5_memory_fields_witness :
    w64 (parseInt64 [53] * 2 ^ 12) = 20480 ∧ parseInt64 [55] = 7 := by
  have h := c5_memory_fields tick2bytes 1000 ⟨0, 0, 0⟩
    ⟨((1000 : Int) : Rat) / 10, 20480, 7⟩ [53] [55] rfl (by decide) (by decide)
  exact ⟨h.1.symm, h.2.symm⟩

/-- C6: `parseInt64` fails soft, returning the sentinel `-1` on every
empty field and on every field containing a byte outside ASCII `0`-`9`;
consequently `Usage` on a record whose RSS field is non-numeric returns
successfully with `rss = -1 <<12 = -4096` instead of failing. -/
theorem c6_soft_parse :
    (∀ d : List Nat, (d = [] ∨ ∃ b ∈ d, b < 48 ∨ 57 < b) →
      parseInt64 d = -1) ∧
    (∀ (ip : Int) (inp : Snapshot),
      usageLinux Unit (.ok badRssBytes) ip inp =
        .ok ⟨(ip : Rat) / 10, -4096, 0⟩) ∧
    w64 ((-1) * 2 ^ 12) = -4096 := by
  refine ⟨?_, fun ip inp => rfl, by decide⟩
  intro d h
  rcases h with h | h
  · rw [h]; rfl
  · have hne : d ≠ [] := by
      rintro rfl
      obtain ⟨b, hb, _⟩ := h
      simp at hb
    unfold parseInt64
    rw [if_neg hne]
    exact parseLoop_bad d 0 h

/-- Closed instance of `c6_soft_parse`: the byte `'x'` (120) parses to
the sentinel. -/
theorem c6_soft_parse_witness : parseInt64 [120] = -1 :=
  c6_soft_parse.1 [120] (Or.inr ⟨120, by decide, by decide⟩)

/-- C9: when the stat read fails, `Usage` returns that error with all
three output locations exactly as the caller passed them in. -/
theorem c9_error_path_writes_nothing :
    ∀ (E : Type) (e : E) (ip : Int) (inp : Snapshot),
      usageLinux E (.error e) ip inp = .err e inp :=
  fun _ _ _ _ => rfl

/-! ### Helper lemmas about the CounterSession model -/

/-- `usageWinBody` reports exactly the `ranInit` flag it was given. -/
theorem usageWinBody_ranInit (env : WinEnv) (st : WinState) (inp : Snapshot)
    (r : Bool) : (usageWinBody env st inp r).ranInit = r := by
  unfold usageWinBody
  repeat' split
  all_goals rfl

/-- `usageWinBody` never changes the `initialSample` flag. -/
theorem usageWinBody_initialSample (env : WinEnv) (st : WinState)
    (inp : Snapshot) (r : Bool) :
    (usageWinBody env st inp r).st.initialSample = st.initialSample := by
  unfold usageWinBody
  repeat' split
  all_goals rfl

/-- When `usageWinBody` returns `ok`, the resulting state is exactly:
same `initialSample`, cached snapshot equal to the returned one, and
`lastSampleTime` set to the call's clock reading; and a collection was
performed. -/
theorem usageWinBody_ok_state (env : WinEnv) (st : WinState) (inp : Snapshot)
    (r : Bool) (out : Snapshot) (st' : WinState) (cl rI : Bool)
    (h : usageWinBody env st inp r = ⟨.ok out, st', cl, rI⟩) :
    st' = ⟨st.initialSample, out.pcpu, out.rss, out.vss, env.now⟩ ∧ cl = true := by
  unfold usageWinBody at h
  repeat' split at h
  all_goals simp_all
  rw [← h.2.1, ← h.1]

/-- The cache-hit branch of `usageWin`: an already-initialized session
queried strictly within 2 seconds of `lastSampleTime` returns the cached
snapshot, leaves the state untouched, and neither collects nor
re-initializes. -/
theorem usageWin_cacheHit (env : WinEnv) (st : WinState) (inp : Snapshot)
    (h1 : st.initialSample = false)
    (h2 : env.now - st.lastSampleTime < twoSecondsNs) :
    usageWin env st inp =
      ⟨.ok ⟨st.prevCPU, st.prevRss, st.prevVss⟩, st, false, false⟩ := by
  unfold usageWin
  rw [h1]
  simp [h2]

/-- A `usageWin` call that returned `ok` and performed a collection
leaves the session initialized, with the returned snapshot cached and
`lastSampleTime` equal to the call's clock reading. -/
theorem usageWin_ok_collected (env : WinEnv) (st : WinState) (inp : Snapshot)
    (out : Snapshot) (st' : WinState) (r : Bool)
    (h : usageWin env st inp = ⟨.ok out, st', true, r⟩) :
    st' = ⟨false, out.pcpu, out.rss, out.vss, env.now⟩ := by
  unfold usageWin at h
  by_cases hi : st.initialSample = true
  · rw [hi] at h
    simp only [if_true] at h
    rcases hin : initCounters env.init with e | u
    · rw [hin] at h
      simp at h
    · rw [hin] at h
      have := usageWinBody_ok_state _ _ _ _ _ _ _ _ h
      simpa using this.1
  · have hi' : st.initialSample = false := by
      cases hb : st.initialSample
      · rfl
      · exact absurd hb hi
    rw [hi'] at h
    simp only [Bool.false_eq_true, if_false] at h
    by_cases ht : env.now - st.lastSampleTime < twoSecondsNs
    · rw [if_pos ht] at h
      simp at h
    · rw [if_neg ht] at h
      have := usageWinBody_ok_state _ _ _ _ _ _ _ _ h
      rw [← hi']
      exact this.1

/-- `findPidIndex` returns `none` exactly when no array entry truncates
to the sought PID. -/
theorem findPidIndex_none (pid : Int) (l : List Rat) :
    findPidIndex pid l = none ↔ ∀ x ∈ l, ratTrunc x ≠ pid := by
  induction l with
  | nil => simp [findPidIndex]
  | cons a tl ih =>
    unfold findPidIndex
    by_cases ha : ratTrunc a = pid
    · simp [ha]
    · simp [ha, ih]

/-- A successful `findPidIndex` points at an entry that truncates to the
sought PID. -/
theorem findPidIndex_some (pid : Int) (l : List Rat) (idx : Nat)
    (h : findPidIndex pid l = some idx) :
    ∃ x, l[idx]? = some x ∧ ratTrunc x = pid := by
  induction l generalizing idx with
  | nil => simp [findPidIndex] at h
  | cons a tl ih =>
    unfold findPidIndex at h
    by_cases ha : ratTrunc a = pid
    · rw [if_pos ha] at h
      injection h with h
      exact ⟨a, by rw [← h]; simp, ha⟩
    · rw [if_neg ha] at h
      rcases hf : findPidIndex pid tl with _ | j
      · rw [hf] at h
        exact Option.noConfusion h
      · rw [hf] at h
        injection h with h
        obtain ⟨x, hx1, hx2⟩ := ih j hf
        exact ⟨x, by rw [← h]; simpa using hx1, hx2⟩

/-! ### Claims about the CounterSession backend -/

/-- C4 counterexample: with a fresh sample at time 0 cached, a call at
1.9 s is a cache hit returning the old snapshot, and a call at 2.1 s
(only 0.2 s after the previous call) performs a fresh collection and
returns a different snapshot, so the claim that any two `Usage` calls
less than 2 seconds apart return identical snapshots is false. -/
theorem c4_counterexample :
    (usageWin ⟨⟨true, true, true, true, true, true⟩, 1900000000, 5, true,
        .ok [], .ok [], .ok [], .ok []⟩
      ⟨false, 1, 1, 1, 0⟩ ⟨0, 0, 0⟩).res = .ok ⟨1, 1, 1⟩ ∧
    (usageWin ⟨⟨true, true, true, true, true, true⟩, 2100000000, 5, true,
        .ok [5], .ok [2], .ok [2], .ok [2]⟩
      (usageWin ⟨⟨true, true, true, true, true, true⟩, 1900000000, 5, true,
          .ok [], .ok [], .ok [], .ok []⟩
        ⟨false, 1, 1, 1, 0⟩ ⟨0, 0, 0⟩).st ⟨0, 0, 0⟩).res = .ok ⟨2, 2, 2⟩ ∧
    (2100000000 : Int) - 1900000000 < twoSecondsNs ∧
    (⟨1, 1, 1⟩ : Snapshot) ≠ ⟨2, 2, 2⟩ := by
  refine ⟨by decide, by decide, by decide, by decide⟩

/-- C4 (amended): a `Usage` call on an initialized CounterSession made
less than 2 seconds after the last successful sample (whose time is at
most `lastSampleTime`, which never exceeds the current time) returns the
cached snapshot unchanged, leaves the state untouched and performs no
collection; and two `Usage` calls less than 2 seconds apart return
identical snapshots whenever the first of them performed a fresh
successful collection. -/
theorem c4_cache_window :
    (∀ (env : WinEnv) (st : WinState) (inp : Snapshot) (t : Int),
      st.initialSample = false →
      t ≤ st.lastSampleTime → st.lastSampleTime ≤ env.now →
      env.now - t < twoSecondsNs →
      usageWin env st inp =
        ⟨.ok ⟨st.prevCPU, st.prevRss, st.prevVss⟩, st, false, false⟩) ∧
    (∀ (e1 e2 : WinEnv) (st st1 : WinState) (inp1 inp2 out : Snapshot)
       (r : Bool),
      usageWin e1 st inp1 = ⟨.ok out, st1, true, r⟩ →
      e2.now - e1.now < twoSecondsNs →
      usageWin e2 st1 inp2 = ⟨.ok out, st1, false, false⟩) := by
  constructor
  · intro env st inp t h1 h2 h3 h4
    exact usageWin_cacheHit env st inp h1 (by omega)
  · intro e1 e2 st st1 inp1 inp2 out r h hlt
    have hst := usageWin_ok_collected e1 st inp1 out st1 r h
    have := usageWin_cacheHit e2 st1 inp2 (by rw [hst]) (by rw [hst]; simpa using hlt)
    rw [this, hst]

/-- Closed instance of `c4_cache_window`: a concrete cache hit within
the 2-second window. -/
theorem c4_cache_window_witness :
    usageWin ⟨⟨true, true, true, true, true, true⟩, 1900000000, 5, true,
        .ok [], .ok [], .ok [], .ok []⟩
      ⟨false, 1, 1, 1, 0⟩ ⟨0, 0, 0⟩ =
      ⟨.ok ⟨1, 1, 1⟩, ⟨false, 1, 1, 1, 0⟩, false, false⟩ :=
  c4_cache_window.1 ⟨⟨true, true, true, true, true, true⟩, 1900000000, 5, true,
      .ok [], .ok [], .ok [], .ok []⟩
    ⟨false, 1, 1, 1, 0⟩ ⟨0, 0, 0⟩ 0 rfl (by decide) (by decide) (by decide)

/-- C7: after a fresh collection (initialized session, throttle window
expired, collection and all four array fetches successful), `Usage`
searches the PID array for an index whose (integer-truncated) value
equals the caller's PID: if no index matches it fails with the
pid-not-found error, and if an index matches it returns the values at
that same index of the CPU/RSS/VSS arrays. -/
theorem c7_pid_demux :
    ∀ (env : WinEnv) (st : WinState) (inp : Snapshot)
      (pidA cpuA rssA vssA : List Rat),
      st.initialSample = false →
      ¬ env.now - st.lastSampleTime < twoSecondsNs →
      env.collectOk = true →
      env.pidAry = .ok pidA → env.cpuAry = .ok cpuA →
      env.rssAry = .ok rssA → env.vssAry = .ok vssA →
      ((∀ x ∈ pidA, ratTrunc x ≠ env.pid) →
        usageWin env st inp =
          ⟨.err .pidNotFound inp, { st with lastSampleTime := env.now },
           true, false⟩) ∧
      (∀ (idx : Nat) (c r v : Rat),
        findPidIndex env.pid pidA = some idx →
        cpuA[idx]? = some c → rssA[idx]? = some r → vssA[idx]? = some v →
        (∃ x, pidA[idx]? = some x ∧ ratTrunc x = env.pid) ∧
        usageWin env st inp =
          ⟨.ok ⟨c, ratTrunc r, ratTrunc v⟩,
           ⟨false, c, ratTrunc r, ratTrunc v, env.now⟩, true, false⟩) := by
  intro env st inp pidA cpuA rssA vssA hinit hth hcol hp hc hr hv
  have hbody : usageWin env st inp = usageWinBody env st inp false := by
    unfold usageWin
    rw [hinit]
    simp [hth]
  constructor
  · intro hnone
    have hfn := (findPidIndex_none env.pid pidA).mpr hnone
    rw [hbody]
    simp [usageWinBody, hcol, hp, hc, hr, hv, hfn]
  · intro idx c r v hfind hic hir hiv
    refine ⟨findPidIndex_some env.pid pidA idx hfind, ?_⟩
    rw [hbody]
    simp [usageWinBody, hcol, hp, hc, hr, hv, hfind, hic, hir, hiv, hinit]

/-- Closed instance of `c7_pid_demux`: a one-entry counter result where
the PID matches at index 0. -/
theorem c7_pid_demux_witness :
    usageWin ⟨⟨true, true, true, true, true, true⟩, 5000000000, 7, true,
        .ok [7], .ok [3], .ok [4], .ok [6]⟩
      ⟨false, 1, 1, 1, 0⟩ ⟨0, 0, 0⟩ =
      ⟨.ok ⟨3, ratTrunc 4, ratTrunc 6⟩,
       ⟨false, 3, ratTrunc 4, ratTrunc 6, 5000000000⟩, true, false⟩ :=
  ((c7_pid_demux ⟨⟨true, true, true, true, true, true⟩, 5000000000, 7, true,
        .ok [7], .ok [3], .ok [4], .ok [6]⟩
      ⟨false, 1, 1, 1, 0⟩ ⟨0, 0, 0⟩ [7] [3] [4] [6]
      rfl (by decide) rfl rfl rfl rfl rfl).2 0 3 4 6
    (by decide) rfl rfl rfl).2

/-- C8: a `Usage` call that finds the session uninitialized runs
`initCounters`; if that fails the call returns the error with the
session still uninitialized and untouched, so the next call re-runs
initialization; once the session is initialized (`initCounters`
succeeded), it stays initialized and later calls never re-run
initialization. -/
theorem c8_init_retry :
    (∀ (env : WinEnv) (st : WinState) (inp : Snapshot) (e : WinErr),
      st.initialSample = true → initCounters env.init = .error e →
      usageWin env st inp = ⟨.err e inp, st, false, true⟩) ∧
    (∀ (env : WinEnv) (st : WinState) (inp : Snapshot),
      st.initialSample = true → (usageWin env st inp).ranInit = true) ∧
    (∀ (env : WinEnv) (st : WinState) (inp : Snapshot),
      st.initialSample = false →
      (usageWin env st inp).ranInit = false ∧
      (usageWin env st inp).st.initialSample = false) ∧
    (∀ (env : WinEnv) (st : WinState) (inp : Snapshot),
      st.initialSample = true → initCounters env.init = .ok () →
      (usageWin env st inp).st.initialSample = false) := by
  refine ⟨?_, ?_, ?_, ?_⟩
  · intro env st inp e h1 h2
    unfold usageWin
    rw [h1, h2]
    simp
  · intro env st inp h1
    unfold usageWin
    rw [h1]
    rcases h2 : initCounters env.init with e | u
    · rfl
    · simp [usageWinBody_ranInit]
  · intro env st inp h1
    unfold usageWin
    rw [h1]
    by_cases ht : env.now - st.lastSampleTime < twoSecondsNs
    · simp [ht, h1]
    · simp [ht, usageWinBody_ranInit, usageWinBody_initialSample, h1]
  · intro env st inp h1 h2
    unfold usageWin
    rw [h1, h2]
    simp [usageWinBody_initialSample]

/-- Closed instance of `c8_init_retry`: a failed `PdhOpenQuery` leaves
the session uninitialized with the error returned. -/
theorem c8_init_retry_witness :
    usageWin ⟨⟨false, true, true, true, true, true⟩, 0, 5, true,
        .ok [], .ok [], .ok [], .ok []⟩
      ⟨true, 0, 0, 0, 0⟩ ⟨0, 0, 0⟩ =
      ⟨.err .openFailed ⟨0, 0, 0⟩, ⟨true, 0, 0, 0, 0⟩, false, true⟩ :=
  c8_init_retry.1 ⟨⟨false, true, true, true, true, true⟩, 0, 5, true,
      .ok [], .ok [], .ok [], .ok []⟩
    ⟨true, 0, 0, 0, 0⟩ ⟨0, 0, 0⟩ .openFailed rfl rfl

/-! ### C10: getProcessExeName trimming -/

/-- The head of `dropWhile p l`, when present, fails `p`. -/
theorem dropWhile_head_not (p : Char → Bool) (l : List Char) :
    ∀ ch, (l.dropWhile p).head? = some ch → p ch = false := by
  induction l with
  | nil => intro ch h; cases h
  | cons a tl ih =>
    intro ch h
    by_cases ha : p a = true
    · rw [List.dropWhile_cons_of_pos ha] at h
      exact ih ch h
    · rw [List.dropWhile_cons_of_neg ha] at h
      injection h with h
      rw [← h]
      exact Bool.eq_false_iff.mpr ha

/-- `dropWhile` never lengthens a list. -/
theorem dropWhile_length_le (p : Char → Bool) (l : List Char) :
    (l.dropWhile p).length ≤ l.length := by
  induction l with
  | nil => simp
  | cons a tl ih =>
    by_cases ha : p a = true
    · rw [List.dropWhile_cons_of_pos ha]
      exact Nat.le_trans ih (Nat.le_succ _)
    · rw [List.dropWhile_cons_of_neg ha]

/-- C10: `getProcessExeName` removes from the base name every trailing
character of the set `{'.', 'e', 'x'}` — the result is a front part of
the base name whose removed tail consists only of such characters and
whose own last character (if any) is outside the set — and it removes at
least one character whenever the base name ends in any such character,
not only on an exact `".exe"` suffix; in particular `"curve.exe"` is
truncated to `"curv"` and `"serve"` (no `".exe"` suffix at all) to
`"serv"`. -/
theorem c10_trimright_strips_set :
    (∀ base : List Char,
      (∃ t, base = getProcessExeName base ++ t ∧
        ∀ ch ∈ t, ch ∈ (['.', 'e', 'x'] : List Char)) ∧
      (∀ ch, (getProcessExeName base).getLast? = some ch →
        ch ∉ (['.', 'e', 'x'] : List Char)) ∧
      (∀ ch, base.getLast? = some ch → ch ∈ (['.', 'e', 'x'] : List Char) →
        (getProcessExeName base).length < base.length)) ∧
    getProcessExeName ['c', 'u', 'r', 'v', 'e', '.', 'e', 'x', 'e'] =
      ['c', 'u', 'r', 'v'] ∧
    getProcessExeName ['s', 'e', 'r', 'v', 'e'] = ['s', 'e', 'r', 'v'] := by
  refine ⟨?_, by decide, by decide⟩
  intro base
  refine ⟨?_, ?_, ?_⟩
  · refine ⟨(base.reverse.takeWhile
      (fun c => decide (c ∈ (['.', 'e', 'x'] : List Char)))).reverse, ?_, ?_⟩
    · conv_lhs => rw [← base.reverse_reverse,
        ← List.takeWhile_append_dropWhile
          (p := fun c => decide (c ∈ (['.', 'e', 'x'] : List Char)))
          (l := base.reverse)]
      rw [List.reverse_append]
      rfl
    · intro ch hch
      rw [List.mem_reverse] at hch
      have hp := List.mem_takeWhile_imp
        (p := fun c => decide (c ∈ (['.', 'e', 'x'] : List Char))) hch
      exact of_decide_eq_true hp
  · intro ch hch
    unfold getProcessExeName goTrimRight at hch
    rw [List.getLast?_reverse] at hch
    have := dropWhile_head_not _ _ ch hch
    intro hmem
    rw [decide_eq_true hmem] at this
    cases this
  · intro ch hlast hmem
    unfold getProcessExeName goTrimRight
    rw [List.length_reverse]
    have hrev : base.reverse.head? = some ch := by
      rw [List.head?_reverse]
      exact hlast
    rcases hb : base.reverse with _ | ⟨a, tl⟩
    · rw [hb] at hrev
      cases hrev
    · rw [hb] at hrev
      injection hrev with hrev
      have hlen : base.length = tl.length + 1 := by
        have hc := congrArg List.length hb
        simpa using hc
      rw [List.dropWhile_cons_of_pos (by rw [hrev]; exact decide_eq_true hmem)]
      have := dropWhile_length_le
        (fun c => decide (c ∈ (['.', 'e', 'x'] : List Char))) tl
      omega

/-- Closed instance of `c10_trimright_strips_set`: the base name
`"serve"` keeps no trailing cut-set character and loses length. -/
theorem c10_trimright_strips_set_witness :
    ('v' ∉ (['.', 'e', 'x'] : List Char)) ∧
    (getProcessExeName ['s', 'e', 'r', 'v', 'e']).length <
      (['s', 'e', 'r', 'v', 'e'] : List Char).length :=
  ⟨(c10_trimright_strips_set.1 ['s', 'e', 'r', 'v', 'e']).2.1 'v' (by decide),
   (c10_trimright_strips_set.1 ['s', 'e', 'r', 'v', 'e']).2.2 'e' (by decide)
     (by decide)⟩

end Proc
